import Mathlib

/-!
# FinnVesta Valuation & Long-Term Investment Planning Engine — verification

The repository's frontend (src/pages, src/utils, src/components) calls a
backend engine through `apiClient` (`compute_valuation`, `generate_plan`,
per-building valuation history, PTS plans).  The engine itself is not part
of the shipped sources; the frontend carries its methodology description
(RakennuksenTiedot.tsx, "Laskentamenetelmä" card: 1.75 %/year depreciation
of JHA, trigger when TeknA falls under the threshold, investment =
JHA × target % − TeknA, multi-year projects for buildings over 4000 /
8000 m²) and consumes its outputs.  The engine definitions below are
therefore modelled from the specification, faithful to its wording; the
building-list condition classification (`Rakennukset.tsx`) is embedded
directly from the source.

All monetary quantities are rationals (ℚ): the engine's arithmetic is
plain field arithmetic and the spec's split invariant ("within
floating-point tolerance") is exact over ℚ.
-/

namespace FinnVesta

/-- Modelled from the spec: Building record (§3) — `area_m2`, `construction_year`,
`cost_per_m2`; identity reduced to a numeric id. -/
structure Building where
  id : Nat
  area_m2 : ℚ
  construction_year : Int
  cost_per_m2 : ℚ
  deriving DecidableEq

/-- Modelled from the spec: fixed policy constant, 1.75 %/year of replacement
value (§4.2). -/
def annual_depreciation_rate : ℚ := 7 / 400

/-- Modelled from the spec: `replacement_value = cost_per_m2 × area_m2` (§4.2). -/
def replacementValue (cost_per_m2 area_m2 : ℚ) : ℚ :=
  cost_per_m2 * area_m2

/-- Modelled from the spec: `building_age = evaluation_year − construction_year`,
clamped to 0 when evaluation predates construction (§4.2). -/
def buildingAge (construction_year evaluation_year : Int) : Int :=
  max 0 (evaluation_year - construction_year)

/-- Modelled from the spec: the Valuation snapshot (§3): JHA, TeknA, condition
ratio, age, depreciation amount and repair-debt breakdown. -/
structure Valuation where
  replacement_value : ℚ
  building_age : Int
  annual_depreciation_amount : ℚ
  technical_value : ℚ
  condition_ratio : ℚ
  pptarve : ℚ
  kptarve : ℚ
  repair_debt : ℚ
  deriving DecidableEq

/-- Modelled from the spec: the ValuationCalculator algorithm (§4.2): linear
age depreciation floored at zero, condition ratio TeknA/JHA, and the
0.60 / 0.75 repair-debt tiers with target multipliers 1.20 / 0.75. -/
def computeValuationCore (cost_per_m2 area_m2 : ℚ)
    (construction_year evaluation_year : Int) : Valuation :=
  let rv := replacementValue cost_per_m2 area_m2
  let age := buildingAge construction_year evaluation_year
  let dep := rv * annual_depreciation_rate
  let tv := max 0 (rv - dep * (age : ℚ))
  let ratio := tv / rv
  let pp := if ratio < 3 / 5 then rv * (6 / 5) - tv else 0
  let kp := if ratio < 3 / 5 then 0
            else if ratio < 3 / 4 then rv * (3 / 4) - tv else 0
  { replacement_value := rv
    building_age := age
    annual_depreciation_amount := dep
    technical_value := tv
    condition_ratio := ratio
    pptarve := pp
    kptarve := kp
    repair_debt := pp + kp }

/-- Modelled from the spec: the external `compute_valuation` contract (§6):
raises a data-validation error when `cost_per_m2 ≤ 0` or `area_m2 ≤ 0`,
otherwise returns the Valuation. -/
def compute_valuation (cost_per_m2 area_m2 : ℚ)
    (construction_year evaluation_year : Int) : Option Valuation :=
  if cost_per_m2 ≤ 0 ∨ area_m2 ≤ 0 then none
  else some (computeValuationCore cost_per_m2 area_m2 construction_year evaluation_year)

/-- Forward scan for the least index below the bound satisfying `p`:
`firstHit p n` is the least `i < n` with `p i = true`, or `none`. -/
def firstHit (p : Nat → Bool) : Nat → Option Nat
  | 0 => none
  | n + 1 =>
    match firstHit p n with
    | some i => some i
    | none => if p n then some n else none

/-- Modelled from the spec: forward condition-ratio projection (§4.3) — the
condition ratio of a building at year `y`, via §4.2's depreciation formula
with evaluation year `y` (age grows by one each year, no renovation). -/
def conditionRatioAt (b : Building) (y : Int) : ℚ :=
  (computeValuationCore b.cost_per_m2 b.area_m2 b.construction_year y).condition_ratio

/-- Modelled from the spec: the projected technical value of a building at
year `y` (§4.3). -/
def technicalValueAt (b : Building) (y : Int) : ℚ :=
  (computeValuationCore b.cost_per_m2 b.area_m2 b.construction_year y).technical_value

/-- Modelled from the spec: a triggered renovation event (§4.3): year, amount,
condition before and after. -/
structure RenovationEvent where
  year : Int
  investment_amount : ℚ
  condition_before : ℚ
  condition_after : ℚ
  deriving DecidableEq

/-- Modelled from the spec: the RenovationScheduler (§4.3).  Scans the years
`start_year … start_year + horizon − 1` in order; the first year whose
projected condition ratio is strictly below `trigger_threshold` is the
trigger year, with `investment_amount = replacement_value ×
target_percentage − technical_value(trigger year)` clamped at 0,
`condition_before` the ratio at the trigger year and `condition_after` the
target.  A building that never drops below the threshold in the horizon
produces no event. -/
def scheduleBuilding (b : Building) (trigger_threshold target_percentage : ℚ)
    (start_year : Int) (planning_horizon_years : Nat) : Option RenovationEvent :=
  match firstHit
      (fun i => decide (conditionRatioAt b (start_year + (i : Int)) < trigger_threshold))
      planning_horizon_years with
  | none => none
  | some i =>
    let y := start_year + (i : Int)
    some { year := y
           investment_amount :=
             max 0 (replacementValue b.cost_per_m2 b.area_m2 * target_percentage -
               technicalValueAt b y)
           condition_before := conditionRatioAt b y
           condition_after := target_percentage }

/-- Modelled from the spec: an Investment entry of the yearly schedule (§3):
building reference, amount, condition before/after, split flag and 1-based
split index. -/
structure Investment where
  building_id : Nat
  year : Int
  investment_amount : ℚ
  condition_before : ℚ
  condition_after : ℚ
  is_split_project : Bool
  split_year_index : Option Nat
  deriving DecidableEq

/-- Modelled from the spec: the ProjectSplitter (§4.4).  Buildings over
8000 m² split a triggered investment equally over 3 consecutive years
(indices 1, 2, 3), buildings over 4000 m² and up to 8000 m² over 2 years
(indices 1, 2); at most 4000 m² stays a single unsplit entry.  Only the
first year carries the real `condition_before`; later years inherit the
`condition_after` value. -/
def splitInvestment (b : Building) (e : RenovationEvent) : List Investment :=
  if 8000 < b.area_m2 then
    [ { building_id := b.id, year := e.year,
        investment_amount := e.investment_amount / 3,
        condition_before := e.condition_before, condition_after := e.condition_after,
        is_split_project := true, split_year_index := some 1 },
      { building_id := b.id, year := e.year + 1,
        investment_amount := e.investment_amount / 3,
        condition_before := e.condition_after, condition_after := e.condition_after,
        is_split_project := true, split_year_index := some 2 },
      { building_id := b.id, year := e.year + 2,
        investment_amount := e.investment_amount / 3,
        condition_before := e.condition_after, condition_after := e.condition_after,
        is_split_project := true, split_year_index := some 3 } ]
  else if 4000 < b.area_m2 then
    [ { building_id := b.id, year := e.year,
        investment_amount := e.investment_amount / 2,
        condition_before := e.condition_before, condition_after := e.condition_after,
        is_split_project := true, split_year_index := some 1 },
      { building_id := b.id, year := e.year + 1,
        investment_amount := e.investment_amount / 2,
        condition_before := e.condition_after, condition_after := e.condition_after,
        is_split_project := true, split_year_index := some 2 } ]
  else
    [ { building_id := b.id, year := e.year,
        investment_amount := e.investment_amount,
        condition_before := e.condition_before, condition_after := e.condition_after,
        is_split_project := false, split_year_index := none } ]

/-- Modelled from the spec: the shared plan parameters (§3, §6). -/
structure PlanParameters where
  trigger_threshold : ℚ
  target_percentage : ℚ
  planning_horizon_years : Nat
  start_year : Int
  deriving DecidableEq

/-- Modelled from the spec: parameter validation at the `generate_plan`
boundary (§7): trigger threshold in (0,1) and horizon at least 1. -/
def validParams (p : PlanParameters) : Prop :=
  0 < p.trigger_threshold ∧ p.trigger_threshold < 1 ∧ 1 ≤ p.planning_horizon_years

instance (p : PlanParameters) : Decidable (validParams p) := by
  unfold validParams
  infer_instance

/-- Modelled from the spec: per-building data validity (§4.5, §7): positive
cost basis and positive area. -/
def validBuilding (b : Building) : Prop :=
  0 < b.cost_per_m2 ∧ 0 < b.area_m2

instance (b : Building) : Decidable (validBuilding b) := by
  unfold validBuilding
  infer_instance

/-- Modelled from the spec: scheduler + splitter for one building (§4.5). -/
def buildingInvestments (p : PlanParameters) (b : Building) : List Investment :=
  match scheduleBuilding b p.trigger_threshold p.target_percentage
      p.start_year p.planning_horizon_years with
  | none => []
  | some e => splitInvestment b e

/-- Modelled from the spec: the flat portfolio schedule (§4.5): investments of
every data-valid building, in building-insertion order. -/
def scheduleOf (p : PlanParameters) (bs : List Building) : List Investment :=
  (bs.filter (fun b => decide (validBuilding b))).flatMap (buildingInvestments p)

/-- Modelled from the spec: the years covered by the annual summary: the
horizon years plus the two years a 3-way split can spill past `end_year`
(§4.4: spilled fractions are still recorded, the building total keeps the
full amount). -/
def summaryYears (p : PlanParameters) : List Int :=
  (List.range (p.planning_horizon_years + 2)).map (fun (i : Nat) => p.start_year + (i : Int))

/-- Modelled from the spec: one year's total investment (§4.5): the sum of
the amounts of that year's schedule entries. -/
def yearTotal (inv : List Investment) (y : Int) : ℚ :=
  ((inv.filter (fun e => decide (e.year = y))).map Investment.investment_amount).sum

/-- Modelled from the spec: number of distinct buildings represented in one
year (§4.5). -/
def yearBuildingsCount (inv : List Investment) (y : Int) : Nat :=
  (((inv.filter (fun e => decide (e.year = y))).map Investment.building_id).dedup).length

/-- Modelled from the spec: running investment sum from `start_year` through
a year inclusive (§4.5). -/
def cumulativeThrough (p : PlanParameters) (inv : List Investment) (y : Int) : ℚ :=
  (((summaryYears p).filter (fun z => decide (z ≤ y))).map (yearTotal inv)).sum

/-- Modelled from the spec: a per-year summary row (§3). -/
structure AnnualSummary where
  year : Int
  total_investment : ℚ
  buildings_count : Nat
  cumulative_investment : ℚ
  deriving DecidableEq

/-- Modelled from the spec: the annual summary over the covered years (§4.5). -/
def annualSummaryOf (p : PlanParameters) (inv : List Investment) : List AnnualSummary :=
  (summaryYears p).map (fun y =>
    { year := y
      total_investment := yearTotal inv y
      buildings_count := yearBuildingsCount inv y
      cumulative_investment := cumulativeThrough p inv y })

/-- Modelled from the spec: the PTSPlan output (§3): parameters, year range,
flat schedule, excluded-building warnings, per-year summary and portfolio
totals. -/
structure PTSPlan where
  parameters : PlanParameters
  start_year : Int
  end_year : Int
  schedule : List Investment
  warnings : List Building
  annual_summary : List AnnualSummary
  total_investment : ℚ
  average_annual_investment : ℚ
  buildings_needing_renovation : Nat
  total_buildings : Nat
  deriving DecidableEq

/-- Modelled from the spec: plan assembly for validated parameters (§4.5):
data-invalid buildings are shunted to the warnings list, the valid
remainder is scheduled, and portfolio totals are computed from the flat
schedule. -/
def makePlan (bs : List Building) (p : PlanParameters) : PTSPlan :=
  { parameters := p
    start_year := p.start_year
    end_year := p.start_year + (p.planning_horizon_years : Int) - 1
    schedule := scheduleOf p bs
    warnings := bs.filter (fun b => !(decide (validBuilding b)))
    annual_summary := annualSummaryOf p (scheduleOf p bs)
    total_investment := ((scheduleOf p bs).map Investment.investment_amount).sum
    average_annual_investment :=
      ((scheduleOf p bs).map Investment.investment_amount).sum /
        (p.planning_horizon_years : ℚ)
    buildings_needing_renovation :=
      (((scheduleOf p bs).map Investment.building_id).dedup).length
    total_buildings := bs.length }

/-- Modelled from the spec: the `generate_plan` contract (§4.5, §6, §7).
Out-of-range parameters are rejected at the boundary (modelled as `none`:
no plan at all); otherwise the plan is assembled by `makePlan`. -/
def generate_plan (bs : List Building) (p : PlanParameters) : Option PTSPlan :=
  if validParams p then some (makePlan bs p) else none

/-- Modelled from the spec: one catalogue component as seen by the
AssessmentAggregator (§4.1): its weight and an optional 1–5 score
(absent components are simply not scored). -/
structure ScoredComponent where
  score : Option Nat
  weight : ℚ
  deriving DecidableEq

/-- Modelled from the spec: the components actually present in an assessment,
as (score, weight) pairs (§4.1). -/
def includedComponents (cs : List ScoredComponent) : List (Nat × ℚ) :=
  cs.filterMap (fun c => c.score.map (fun s => (s, c.weight)))

/-- Modelled from the spec: the AssessmentAggregator (§4.1): drop unscored
components, renormalize the remaining weights by their sum, and return the
weighted average; `none` when nothing is scored. -/
def aggregate_assessment (cs : List ScoredComponent) : Option ℚ :=
  let inc := includedComponents cs
  if inc.isEmpty then none
  else
    let wsum := (inc.map Prod.snd).sum
    some ((inc.map (fun sc => (sc.1 : ℚ) * (sc.2 / wsum))).sum)

/-- From src/pages/Rakennukset.tsx: JavaScript falsiness of the
`condition_score` field (`!b.condition_score`): missing scores and a score
of exactly 0 are both falsy. -/
def scoreFalsy : Option ℚ → Bool
  | none => true
  | some s => s == 0

/-- From src/pages/Rakennukset.tsx (conditionFilter predicate, lines
162–172): which buildings a condition-filter value keeps. -/
def conditionFilterMatches (conditionFilter : String) (condition_score : Option ℚ) : Bool :=
  if scoreFalsy condition_score then conditionFilter == "no-assessment"
  else
    let s := condition_score.getD 0
    if conditionFilter == "critical" then decide (s < 50)
    else if conditionFilter == "poor" then decide (50 ≤ s) && decide (s < 60)
    else if conditionFilter == "fair" then decide (60 ≤ s) && decide (s < 75)
    else if conditionFilter == "good" then decide (75 ≤ s)
    else true

/-- From src/pages/Rakennukset.tsx: the five condition-filter values offered
by the building list. -/
def conditionFilterValues : List String :=
  ["critical", "poor", "fair", "good", "no-assessment"]

/-- From src/pages/Rakennukset.tsx (`getConditionBadge`, lines 98–125): the
badge label assigned to a condition score. -/
def getConditionBadgeLabel (score : Option ℚ) : String :=
  if scoreFalsy score then "Ei arvioitu"
  else
    let s := score.getD 0
    if 75 ≤ s then "Hyvä"
    else if 60 ≤ s then "Tyydyttävä"
    else if 50 ≤ s then "Välttävä"
    else "Kriittinen"

/-- Field view of `computeValuationCore`: technical value. -/
lemma core_technical_value (c a : ℚ) (cy ey : Int) :
    (computeValuationCore c a cy ey).technical_value =
      max 0 (replacementValue c a -
        replacementValue c a * annual_depreciation_rate * ((buildingAge cy ey : Int) : ℚ)) :=
  rfl

/-- Field view of `computeValuationCore`: condition ratio. -/
lemma core_condition_ratio (c a : ℚ) (cy ey : Int) :
    (computeValuationCore c a cy ey).condition_ratio =
      (computeValuationCore c a cy ey).technical_value / replacementValue c a :=
  rfl

/-- Field view of `computeValuationCore`: replacement value. -/
lemma core_replacement_value (c a : ℚ) (cy ey : Int) :
    (computeValuationCore c a cy ey).replacement_value = replacementValue c a :=
  rfl

/-- Field view of `computeValuationCore`: pptarve. -/
lemma core_pptarve (c a : ℚ) (cy ey : Int) :
    (computeValuationCore c a cy ey).pptarve =
      if (computeValuationCore c a cy ey).condition_ratio < 3 / 5 then
        replacementValue c a * (6 / 5) - (computeValuationCore c a cy ey).technical_value
      else 0 :=
  rfl

/-- Field view of `computeValuationCore`: kptarve. -/
lemma core_kptarve (c a : ℚ) (cy ey : Int) :
    (computeValuationCore c a cy ey).kptarve =
      if (computeValuationCore c a cy ey).condition_ratio < 3 / 5 then 0
      else if (computeValuationCore c a cy ey).condition_ratio < 3 / 4 then
        replacementValue c a * (3 / 4) - (computeValuationCore c a cy ey).technical_value
      else 0 :=
  rfl

/-- Field view of `computeValuationCore`: repair debt. -/
lemma core_repair_debt (c a : ℚ) (cy ey : Int) :
    (computeValuationCore c a cy ey).repair_debt =
      (computeValuationCore c a cy ey).pptarve + (computeValuationCore c a cy ey).kptarve :=
  rfl

/-- `compute_valuation` succeeds exactly on valid inputs and then returns the
core valuation. -/
lemma compute_valuation_eq_some {c a : ℚ} {cy ey : Int} {v : Valuation} :
    compute_valuation c a cy ey = some v ↔
      0 < c ∧ 0 < a ∧ v = computeValuationCore c a cy ey := by
  simp only [compute_valuation]
  split_ifs with h
  · simp only [false_iff]
    rintro ⟨hc, ha, -⟩
    rcases h with h | h
    · exact absurd hc (not_lt.mpr h)
    · exact absurd ha (not_lt.mpr h)
  · push_neg at h
    constructor
    · rintro hv
      exact ⟨h.1, h.2, (Option.some_injective _ hv).symm⟩
    · rintro ⟨-, -, hv⟩
      exact congrArg some hv.symm

/-- The clamped building age is nonnegative. -/
lemma buildingAge_nonneg (cy ey : Int) : 0 ≤ buildingAge cy ey :=
  le_max_left 0 _

/-- The age cast to ℚ is nonnegative. -/
lemma buildingAge_cast_nonneg (cy ey : Int) : (0 : ℚ) ≤ ((buildingAge cy ey : Int) : ℚ) := by
  exact_mod_cast buildingAge_nonneg cy ey

/-- With valid inputs the replacement value is positive. -/
lemma replacementValue_pos {c a : ℚ} (hc : 0 < c) (ha : 0 < a) :
    0 < replacementValue c a :=
  mul_pos hc ha

/-- With valid inputs, `0 ≤ technical_value ≤ replacement_value`. -/
lemma core_technical_value_bounds {c a : ℚ} (cy ey : Int) (hc : 0 < c) (ha : 0 < a) :
    0 ≤ (computeValuationCore c a cy ey).technical_value ∧
      (computeValuationCore c a cy ey).technical_value ≤
        (computeValuationCore c a cy ey).replacement_value := by
  rw [core_technical_value, core_replacement_value]
  have hrv : 0 < replacementValue c a := replacementValue_pos hc ha
  have hdep : 0 ≤ replacementValue c a * annual_depreciation_rate * ((buildingAge cy ey : Int) : ℚ) := by
    have h1 : (0 : ℚ) ≤ replacementValue c a * annual_depreciation_rate := by
      have : (0 : ℚ) ≤ annual_depreciation_rate := by norm_num [annual_depreciation_rate]
      exact mul_nonneg hrv.le this
    exact mul_nonneg h1 (buildingAge_cast_nonneg cy ey)
  refine ⟨le_max_left 0 _, max_le hrv.le (by linarith)⟩

/-- `firstHit` returns `none` exactly when no index below the bound hits. -/
lemma firstHit_eq_none (p : Nat → Bool) :
    ∀ n, firstHit p n = none ↔ ∀ i, i < n → p i = false := by
  intro n
  induction n with
  | zero => simp [firstHit]
  | succ n ih =>
    rcases hfh : firstHit p n with - | j
    · have hall := ih.mp hfh
      by_cases hp : p n
      · simp only [firstHit, hfh, if_pos hp, reduceCtorEq, false_iff]
        push_neg
        exact ⟨n, Nat.lt_succ_self n, by simp [hp]⟩
      · simp only [firstHit, hfh, if_neg hp, true_iff]
        intro i hi
        rcases Nat.lt_succ_iff_lt_or_eq.mp hi with h | h
        · exact hall i h
        · subst h; simpa using hp
    · simp only [firstHit, hfh, reduceCtorEq, false_iff]
      push_neg
      have hi := ih.not.mp (by simp [hfh])
      push_neg at hi
      obtain ⟨j', hj', hpj'⟩ := hi
      exact ⟨j', Nat.lt_succ_of_lt hj', hpj'⟩

/-- `firstHit` returns the least hitting index: it is below the bound, hits,
and every smaller index misses. -/
lemma firstHit_spec (p : Nat → Bool) :
    ∀ n i, firstHit p n = some i →
      i < n ∧ p i = true ∧ ∀ j, j < i → p j = false := by
  intro n
  induction n with
  | zero => intro i h; simp [firstHit] at h
  | succ n ih =>
    intro i h
    rcases hfh : firstHit p n with - | i'
    · simp only [firstHit, hfh] at h
      by_cases hp : p n
      · rw [if_pos hp] at h
        have hni : n = i := by simpa using h
        subst hni
        exact ⟨Nat.lt_succ_self n, hp, (firstHit_eq_none p n).mp hfh⟩
      · rw [if_neg hp] at h
        simp at h
    · simp only [firstHit, hfh] at h
      have hii : i' = i := by simpa using h
      subst hii
      obtain ⟨h1, h2, h3⟩ := ih i' hfh
      exact ⟨Nat.lt_succ_of_lt h1, h2, h3⟩

end FinnVesta

namespace FinnVesta

/-- C1: scenario `cost_per_m2=2500`, `area_m2=1000`, `construction_year=2000`,
`evaluation_year=2024`: JHA 2 500 000, age 24, annual depreciation 43 750,
TeknA 1 450 000, condition ratio 0.58 (the <0.60 tier applies),
pptarve 1 550 000, kptarve 0, repair debt 1 550 000. -/
theorem compute_valuation_scenario1 :
    compute_valuation 2500 1000 2000 2024 = some
      { replacement_value := 2500000
        building_age := 24
        annual_depreciation_amount := 43750
        technical_value := 1450000
        condition_ratio := 29 / 50
        pptarve := 1550000
        kptarve := 0
        repair_debt := 1550000 } ∧
    (computeValuationCore 2500 1000 2000 2024).condition_ratio < 3 / 5 := by
  constructor
  · simp only [compute_valuation, computeValuationCore, replacementValue,
      buildingAge, annual_depreciation_rate]
    norm_num
  · simp only [computeValuationCore, replacementValue, buildingAge,
      annual_depreciation_rate]
    norm_num

/-- C7: for every valid input (`cost_per_m2 > 0`, `area_m2 > 0`) the valuation
returned by `compute_valuation` satisfies `0 ≤ technical_value ≤
replacement_value`, hence `condition_ratio ∈ [0, 1]`. -/
theorem valuation_bounds (c a : ℚ) (cy ey : Int) (v : Valuation)
    (h : compute_valuation c a cy ey = some v) :
    0 ≤ v.technical_value ∧ v.technical_value ≤ v.replacement_value ∧
      0 ≤ v.condition_ratio ∧ v.condition_ratio ≤ 1 := by
  obtain ⟨hc, ha, rfl⟩ := compute_valuation_eq_some.mp h
  obtain ⟨h0, h1⟩ := core_technical_value_bounds cy ey hc ha
  have hrv := replacementValue_pos hc ha
  rw [core_replacement_value] at h1
  refine ⟨h0, by rw [core_replacement_value]; exact h1, ?_, ?_⟩
  · rw [core_condition_ratio]
    exact div_nonneg h0 hrv.le
  · rw [core_condition_ratio, div_le_one hrv]
    exact h1

/-- Witness for C7 at the concrete scenario-1 input. -/
theorem valuation_bounds_witness :
    0 ≤ (computeValuationCore 2500 1000 2000 2024).technical_value ∧
      (computeValuationCore 2500 1000 2000 2024).technical_value ≤
        (computeValuationCore 2500 1000 2000 2024).replacement_value ∧
      0 ≤ (computeValuationCore 2500 1000 2000 2024).condition_ratio ∧
      (computeValuationCore 2500 1000 2000 2024).condition_ratio ≤ 1 :=
  valuation_bounds 2500 1000 2000 2024 (computeValuationCore 2500 1000 2000 2024)
    (by norm_num [compute_valuation])

/-- C2: for every valuation computed on valid input, `repair_debt = pptarve +
kptarve ≥ 0`, and the three condition-ratio tiers produce: below 0.60 a
positive `pptarve = replacement_value × 1.20 − technical_value` with
`kptarve = 0`; in [0.60, 0.75) a positive `kptarve = replacement_value ×
0.75 − technical_value` with `pptarve = 0`; at or above 0.75 both zero —
so exactly one of the two is nonzero except in the top tier. -/
theorem repair_debt_tiers (c a : ℚ) (cy ey : Int) (v : Valuation)
    (h : compute_valuation c a cy ey = some v) :
    v.repair_debt = v.pptarve + v.kptarve ∧ 0 ≤ v.repair_debt ∧
      (v.condition_ratio < 3 / 5 →
        v.pptarve = v.replacement_value * (6 / 5) - v.technical_value ∧
          v.kptarve = 0 ∧ 0 < v.pptarve) ∧
      (3 / 5 ≤ v.condition_ratio → v.condition_ratio < 3 / 4 →
        v.kptarve = v.replacement_value * (3 / 4) - v.technical_value ∧
          v.pptarve = 0 ∧ 0 < v.kptarve) ∧
      (3 / 4 ≤ v.condition_ratio → v.pptarve = 0 ∧ v.kptarve = 0) := by
  obtain ⟨hc, ha, rfl⟩ := compute_valuation_eq_some.mp h
  have hrv := replacementValue_pos hc ha
  have hratio := core_condition_ratio c a cy ey
  have hpp := core_pptarve c a cy ey
  have hkp := core_kptarve c a cy ey
  have hrd := core_repair_debt c a cy ey
  have hrvf := core_replacement_value c a cy ey
  rcases lt_or_le (computeValuationCore c a cy ey).condition_ratio (3 / 5) with h1 | h1
  · have htv : (computeValuationCore c a cy ey).technical_value <
        3 / 5 * replacementValue c a := by
      rw [hratio] at h1
      exact (div_lt_iff₀ hrv).mp h1
    rw [if_pos h1] at hpp
    rw [if_pos h1] at hkp
    have hpp_pos : 0 < (computeValuationCore c a cy ey).pptarve := by
      rw [hpp]; linarith
    refine ⟨hrd, by rw [hrd, hkp]; linarith, fun _ => ⟨by rw [hpp, hrvf], hkp, hpp_pos⟩,
      fun h2 _ => absurd h1 (not_lt.mpr h2), fun h2 => absurd h1 (not_lt.mpr (by linarith))⟩
  · rw [if_neg (not_lt.mpr h1)] at hpp
    rw [if_neg (not_lt.mpr h1)] at hkp
    rcases lt_or_le (computeValuationCore c a cy ey).condition_ratio (3 / 4) with h2 | h2
    · have htv : (computeValuationCore c a cy ey).technical_value <
          3 / 4 * replacementValue c a := by
        rw [hratio] at h2
        exact (div_lt_iff₀ hrv).mp h2
      rw [if_pos h2] at hkp
      have hkp_pos : 0 < (computeValuationCore c a cy ey).kptarve := by
        rw [hkp]; linarith
      refine ⟨hrd, by rw [hrd, hpp]; linarith, fun h3 => absurd h3 (not_lt.mpr h1),
        fun _ _ => ⟨by rw [hkp, hrvf], hpp, hkp_pos⟩,
        fun h3 => absurd h2 (not_lt.mpr h3)⟩
    · rw [if_neg (not_lt.mpr h2)] at hkp
      refine ⟨hrd, by rw [hrd, hpp, hkp]; norm_num, fun h3 => absurd h3 (not_lt.mpr h1),
        fun _ h3 => absurd h3 (not_lt.mpr h2), fun _ => ⟨hpp, hkp⟩⟩

/-- Witness for C2 at the concrete scenario-1 input (the <0.60 tier). -/
theorem repair_debt_tiers_witness :
    (computeValuationCore 2500 1000 2000 2024).repair_debt =
        (computeValuationCore 2500 1000 2000 2024).pptarve +
          (computeValuationCore 2500 1000 2000 2024).kptarve ∧
      0 ≤ (computeValuationCore 2500 1000 2000 2024).repair_debt ∧
      ((computeValuationCore 2500 1000 2000 2024).condition_ratio < 3 / 5 →
        (computeValuationCore 2500 1000 2000 2024).pptarve =
            (computeValuationCore 2500 1000 2000 2024).replacement_value * (6 / 5) -
              (computeValuationCore 2500 1000 2000 2024).technical_value ∧
          (computeValuationCore 2500 1000 2000 2024).kptarve = 0 ∧
          0 < (computeValuationCore 2500 1000 2000 2024).pptarve) ∧
      (3 / 5 ≤ (computeValuationCore 2500 1000 2000 2024).condition_ratio →
        (computeValuationCore 2500 1000 2000 2024).condition_ratio < 3 / 4 →
        (computeValuationCore 2500 1000 2000 2024).kptarve =
            (computeValuationCore 2500 1000 2000 2024).replacement_value * (3 / 4) -
              (computeValuationCore 2500 1000 2000 2024).technical_value ∧
          (computeValuationCore 2500 1000 2000 2024).pptarve = 0 ∧
          0 < (computeValuationCore 2500 1000 2000 2024).kptarve) ∧
      (3 / 4 ≤ (computeValuationCore 2500 1000 2000 2024).condition_ratio →
        (computeValuationCore 2500 1000 2000 2024).pptarve = 0 ∧
          (computeValuationCore 2500 1000 2000 2024).kptarve = 0) :=
  repair_debt_tiers 2500 1000 2000 2024 (computeValuationCore 2500 1000 2000 2024)
    (by norm_num [compute_valuation])

/-- C8: technical value is non-increasing in building age: with identical
`cost_per_m2`, `area_m2` and `construction_year`, an evaluation year giving
a greater-or-equal age yields a smaller-or-equal technical value. -/
theorem technical_value_age_antitone (c a : ℚ) (cy y1 y2 : Int) (v1 v2 : Valuation)
    (h1 : compute_valuation c a cy y1 = some v1)
    (h2 : compute_valuation c a cy y2 = some v2)
    (hage : buildingAge cy y1 ≤ buildingAge cy y2) :
    v2.technical_value ≤ v1.technical_value := by
  obtain ⟨hc, ha, rfl⟩ := compute_valuation_eq_some.mp h1
  obtain ⟨-, -, rfl⟩ := compute_valuation_eq_some.mp h2
  rw [core_technical_value, core_technical_value]
  have hd : 0 ≤ replacementValue c a * annual_depreciation_rate := by
    have : (0 : ℚ) ≤ annual_depreciation_rate := by norm_num [annual_depreciation_rate]
    exact mul_nonneg (replacementValue_pos hc ha).le this
  have hcast : ((buildingAge cy y1 : Int) : ℚ) ≤ ((buildingAge cy y2 : Int) : ℚ) := by
    exact_mod_cast hage
  have := mul_le_mul_of_nonneg_left hcast hd
  exact max_le_max le_rfl (by linarith)

/-- Witness for C8 at ages 24 and 34 of the scenario-1 building. -/
theorem technical_value_age_antitone_witness :
    (computeValuationCore 2500 1000 2000 2034).technical_value ≤
      (computeValuationCore 2500 1000 2000 2024).technical_value :=
  technical_value_age_antitone 2500 1000 2000 2024 2034
    (computeValuationCore 2500 1000 2000 2024)
    (computeValuationCore 2500 1000 2000 2034)
    (by norm_num [compute_valuation]) (by norm_num [compute_valuation])
    (by norm_num [buildingAge])

/-- C3: the RenovationScheduler produces at most one event per building and
horizon, namely at the first year of `[start_year, start_year + horizon − 1]`
whose projected condition ratio is strictly below the trigger threshold,
with `investment_amount = replacement_value × target_percentage −
technical_value(trigger year)` clamped at 0; with no qualifying year, no
event. -/
theorem scheduler_first_trigger (b : Building) (th tg : ℚ) (start : Int) (h : Nat) :
    (scheduleBuilding b th tg start h = none ↔
      ∀ y : Int, start ≤ y → y < start + (h : Int) → ¬ conditionRatioAt b y < th) ∧
    (∀ e, scheduleBuilding b th tg start h = some e →
      start ≤ e.year ∧ e.year < start + (h : Int) ∧
      conditionRatioAt b e.year < th ∧
      (∀ y : Int, start ≤ y → y < e.year → ¬ conditionRatioAt b y < th) ∧
      e.investment_amount =
        max 0 (replacementValue b.cost_per_m2 b.area_m2 * tg - technicalValueAt b e.year) ∧
      e.condition_before = conditionRatioAt b e.year ∧
      e.condition_after = tg) := by
  rcases hfh : firstHit
      (fun i => decide (conditionRatioAt b (start + (i : Int)) < th)) h with - | i
  · have hnone := (firstHit_eq_none _ h).mp hfh
    have hsched : scheduleBuilding b th tg start h = none := by
      simp [scheduleBuilding, hfh]
    refine ⟨?_, ?_⟩
    · rw [hsched]
      simp only [true_iff]
      intro y hy1 hy2 hlt
      have hj := hnone (y - start).toNat (by omega)
      rw [decide_eq_false_iff_not] at hj
      apply hj
      have hy : start + (((y - start).toNat : Nat) : Int) = y := by omega
      rw [hy]
      exact hlt
    · intro e he
      rw [hsched] at he
      exact absurd he (by simp)
  · obtain ⟨hi, hpi, hmin⟩ := firstHit_spec _ h i hfh
    have hpi' : conditionRatioAt b (start + (i : Int)) < th := of_decide_eq_true (by simpa using hpi)
    have hsched : scheduleBuilding b th tg start h = some
        { year := start + (i : Int)
          investment_amount :=
            max 0 (replacementValue b.cost_per_m2 b.area_m2 * tg -
              technicalValueAt b (start + (i : Int)))
          condition_before := conditionRatioAt b (start + (i : Int))
          condition_after := tg } := by
      simp [scheduleBuilding, hfh]
    refine ⟨?_, ?_⟩
    · rw [hsched]
      simp only [reduceCtorEq, false_iff]
      push_neg
      exact ⟨start + (i : Int), by omega, by omega, hpi'⟩
    · intro e he
      rw [hsched] at he
      have he' := Option.some_injective _ he
      subst he'
      dsimp only
      refine ⟨by omega, by omega, hpi', ?_, rfl, rfl, rfl⟩
      intro y hy1 hy2 hlt
      have hj := hmin (y - start).toNat (by omega)
      rw [decide_eq_false_iff_not] at hj
      apply hj
      have hy : start + (((y - start).toNat : Nat) : Int) = y := by omega
      rw [hy]
      exact hlt

/-- Witness for C3: the scenario-1 building with threshold 0.50 and target
1.00 triggers in a one-year horizon starting 2029, where its projected
condition ratio 0.4925 is below the threshold. -/
theorem scheduler_first_trigger_witness :
    conditionRatioAt ⟨1, 1000, 2000, 2500⟩ 2029 < 1 / 2 := by
  have h := (scheduler_first_trigger ⟨1, 1000, 2000, 2500⟩ (1 / 2) 1 2029 1).2
      ⟨2029, 1268750, 197 / 400, 1⟩
      (by norm_num [scheduleBuilding, firstHit, conditionRatioAt, technicalValueAt,
        computeValuationCore, replacementValue, buildingAge, annual_depreciation_rate])
  simpa using h.2.2.1

/-- C4: the ProjectSplitter splits a triggered investment into 3 equal
consecutive-year parts (indices 1,2,3, split flag set) when `area_m2 >
8000`, into 2 equal parts (indices 1,2) when `4000 < area_m2 ≤ 8000`, and
leaves a single unsplit entry when `area_m2 ≤ 4000`; in every case the
split amounts sum to the unsplit `investment_amount`. -/
theorem splitter_rules (b : Building) (e : RenovationEvent) :
    (8000 < b.area_m2 → splitInvestment b e =
      [ { building_id := b.id, year := e.year,
          investment_amount := e.investment_amount / 3,
          condition_before := e.condition_before, condition_after := e.condition_after,
          is_split_project := true, split_year_index := some 1 },
        { building_id := b.id, year := e.year + 1,
          investment_amount := e.investment_amount / 3,
          condition_before := e.condition_after, condition_after := e.condition_after,
          is_split_project := true, split_year_index := some 2 },
        { building_id := b.id, year := e.year + 2,
          investment_amount := e.investment_amount / 3,
          condition_before := e.condition_after, condition_after := e.condition_after,
          is_split_project := true, split_year_index := some 3 } ]) ∧
    (4000 < b.area_m2 → b.area_m2 ≤ 8000 → splitInvestment b e =
      [ { building_id := b.id, year := e.year,
          investment_amount := e.investment_amount / 2,
          condition_before := e.condition_before, condition_after := e.condition_after,
          is_split_project := true, split_year_index := some 1 },
        { building_id := b.id, year := e.year + 1,
          investment_amount := e.investment_amount / 2,
          condition_before := e.condition_after, condition_after := e.condition_after,
          is_split_project := true, split_year_index := some 2 } ]) ∧
    (b.area_m2 ≤ 4000 → splitInvestment b e =
      [ { building_id := b.id, year := e.year,
          investment_amount := e.investment_amount,
          condition_before := e.condition_before, condition_after := e.condition_after,
          is_split_project := false, split_year_index := none } ]) ∧
    ((splitInvestment b e).map Investment.investment_amount).sum = e.investment_amount := by
  refine ⟨?_, ?_, ?_, ?_⟩
  · intro h8
    rw [splitInvestment, if_pos h8]
  · intro h4 h8
    rw [splitInvestment, if_neg (not_lt.mpr h8), if_pos h4]
  · intro h4
    rw [splitInvestment, if_neg (not_lt.mpr (by linarith)), if_neg (not_lt.mpr h4)]
  · rw [splitInvestment]
    split_ifs with h8 h4
    · simp only [List.map_cons, List.map_nil, List.sum_cons, List.sum_nil]
      ring
    · simp only [List.map_cons, List.map_nil, List.sum_cons, List.sum_nil]
      ring
    · simp only [List.map_cons, List.map_nil, List.sum_cons, List.sum_nil]
      ring

/-- Witness for C4: a 5000 m² building splits a 1 000 000 investment into two
500 000 halves over consecutive years (spec scenario 2). -/
theorem splitter_rules_witness :
    splitInvestment ⟨2, 5000, 2000, 2500⟩ ⟨2030, 1000000, 9 / 20, 1⟩ =
      [ { building_id := 2, year := 2030,
          investment_amount := 1000000 / 2,
          condition_before := 9 / 20, condition_after := 1,
          is_split_project := true, split_year_index := some 1 },
        { building_id := 2, year := 2031,
          investment_amount := 1000000 / 2,
          condition_before := 1, condition_after := 1,
          is_split_project := true, split_year_index := some 2 } ] :=
  (splitter_rules ⟨2, 5000, 2000, 2500⟩ ⟨2030, 1000000, 9 / 20, 1⟩).2.1
    (by norm_num) (by norm_num)

/-- C6: `aggregate_assessment` is `none` exactly when no component is scored;
a single scored component returns its raw score; otherwise the result is
the weight-renormalized average Σ scoreᵢ × (weightᵢ / Σ included weights);
and with 1–5 scores and positive weights, every non-`none` result lies in
[1, 5]. -/
theorem aggregate_assessment_spec (cs : List ScoredComponent) :
    (aggregate_assessment cs = none ↔ ∀ c ∈ cs, c.score = none) ∧
    (∀ s : Nat, ∀ w : ℚ, includedComponents cs = [(s, w)] → w ≠ 0 →
      aggregate_assessment cs = some (s : ℚ)) ∧
    (includedComponents cs ≠ [] →
      aggregate_assessment cs = some
        ((includedComponents cs).map (fun sc =>
          (sc.1 : ℚ) * (sc.2 / ((includedComponents cs).map Prod.snd).sum))).sum) ∧
    (∀ q : ℚ, aggregate_assessment cs = some q →
      (∀ sc ∈ includedComponents cs, 1 ≤ sc.1 ∧ sc.1 ≤ 5) →
      (∀ sc ∈ includedComponents cs, (0 : ℚ) < sc.2) →
      1 ≤ q ∧ q ≤ 5) := by
  have hnone : aggregate_assessment cs = none ↔ includedComponents cs = [] := by
    simp only [aggregate_assessment]
    split_ifs with hins
    · simpa [List.isEmpty_iff] using hins
    · simp only [reduceCtorEq, false_iff]
      simpa [List.isEmpty_iff] using hins
  have hval : includedComponents cs ≠ [] →
      aggregate_assessment cs = some
        ((includedComponents cs).map (fun sc =>
          (sc.1 : ℚ) * (sc.2 / ((includedComponents cs).map Prod.snd).sum))).sum := by
    intro hne
    simp only [aggregate_assessment]
    rw [if_neg (by simpa [List.isEmpty_iff] using hne)]
  refine ⟨?_, ?_, hval, ?_⟩
  · rw [hnone, includedComponents, List.filterMap_eq_nil_iff]
    constructor
    · intro h c hc
      have := h c hc
      simpa [Option.map_eq_none'] using this
    · intro h c hc
      simp [h c hc]
  · intro s w hinc hw
    have := hval (by simp [hinc])
    rw [hinc] at this
    simpa [div_self hw] using this
  · intro q hq hsc hwpos
    have hne : includedComponents cs ≠ [] := by
      intro h
      rw [hnone.mpr h] at hq
      exact absurd hq (by simp)
    have hq' := hval hne
    rw [hq] at hq'
    have hqval := (Option.some_injective _ hq').symm
    have hWpos : 0 < ((includedComponents cs).map Prod.snd).sum := by
      apply List.sum_pos
      · intro x hx
        obtain ⟨sc, hsc', rfl⟩ := List.mem_map.mp hx
        exact hwpos sc hsc'
      · simpa [List.map_eq_nil_iff] using hne
    have hWne : ((includedComponents cs).map Prod.snd).sum ≠ 0 := ne_of_gt hWpos
    have hsum1 : ((includedComponents cs).map (fun sc =>
        sc.2 / ((includedComponents cs).map Prod.snd).sum)).sum = 1 := by
      simp only [div_eq_mul_inv]
      rw [List.sum_map_mul_right]
      exact mul_inv_cancel₀ hWne
    constructor
    · rw [← hqval, ← hsum1]
      apply List.sum_le_sum
      intro sc hsc'
      have h1 : (1 : ℚ) ≤ (sc.1 : ℚ) := by exact_mod_cast (hsc sc hsc').1
      have h2 : 0 ≤ sc.2 / ((includedComponents cs).map Prod.snd).sum :=
        div_nonneg (hwpos sc hsc').le hWpos.le
      nlinarith
    · have h5 : ((includedComponents cs).map (fun sc =>
          (sc.1 : ℚ) * (sc.2 / ((includedComponents cs).map Prod.snd).sum))).sum ≤
          ((includedComponents cs).map (fun sc =>
            5 * (sc.2 / ((includedComponents cs).map Prod.snd).sum))).sum := by
        apply List.sum_le_sum
        intro sc hsc'
        have h1 : (sc.1 : ℚ) ≤ 5 := by exact_mod_cast (hsc sc hsc').2
        have h2 : 0 ≤ sc.2 / ((includedComponents cs).map Prod.snd).sum :=
          div_nonneg (hwpos sc hsc').le hWpos.le
        nlinarith
      rw [← hqval]
      refine h5.trans ?_
      rw [List.sum_map_mul_left, hsum1, mul_one]

/-- `generate_plan` succeeds exactly on valid parameters and then returns the
assembled plan. -/
lemma generate_plan_eq_some {bs : List Building} {p : PlanParameters} {plan : PTSPlan} :
    generate_plan bs p = some plan ↔ validParams p ∧ plan = makePlan bs p := by
  rw [generate_plan]
  split_ifs with h
  · constructor
    · intro hv
      exact ⟨h, (Option.some_injective _ hv).symm⟩
    · rintro ⟨-, rfl⟩
      rfl
  · simp only [reduceCtorEq, false_iff]
    rintro ⟨hv, -⟩
    exact h hv

/-- The covered summary years are pairwise distinct. -/
lemma summaryYears_nodup (p : PlanParameters) : (summaryYears p).Nodup := by
  rw [summaryYears]
  exact List.Nodup.map (fun a b hab => by omega) (List.nodup_range _)

/-- Characterization of membership in the covered summary years. -/
lemma mem_summaryYears {p : PlanParameters} {y : Int} :
    y ∈ summaryYears p ↔
      p.start_year ≤ y ∧ y < p.start_year + (p.planning_horizon_years : Int) + 2 := by
  rw [summaryYears]
  simp only [List.mem_map, List.mem_range]
  constructor
  · rintro ⟨i, hi, rfl⟩
    omega
  · rintro ⟨h1, h2⟩
    exact ⟨(y - p.start_year).toNat, by omega, by omega⟩

/-- A scheduled renovation event falls inside the planning horizon. -/
lemma scheduleBuilding_some_year (b : Building) (th tg : ℚ) (start : Int) (h : Nat)
    (e : RenovationEvent) (hsb : scheduleBuilding b th tg start h = some e) :
    start ≤ e.year ∧ e.year < start + (h : Int) := by
  rcases hfh : firstHit
      (fun i => decide (conditionRatioAt b (start + (i : Int)) < th)) h with - | i
  · have hn : scheduleBuilding b th tg start h = none := by
      simp [scheduleBuilding, hfh]
    rw [hn] at hsb
    exact absurd hsb (by simp)
  · obtain ⟨hi, -, -⟩ := firstHit_spec _ h i hfh
    have hs : scheduleBuilding b th tg start h = some
        { year := start + (i : Int)
          investment_amount :=
            max 0 (replacementValue b.cost_per_m2 b.area_m2 * tg -
              technicalValueAt b (start + (i : Int)))
          condition_before := conditionRatioAt b (start + (i : Int))
          condition_after := tg } := by
      simp [scheduleBuilding, hfh]
    rw [hs] at hsb
    have he := Option.some_injective _ hsb
    subst he
    dsimp only
    omega

/-- A split entry's year stays within two years of the trigger year. -/
lemma splitInvestment_year_range (b : Building) (ev : RenovationEvent) :
    ∀ e ∈ splitInvestment b ev, ev.year ≤ e.year ∧ e.year ≤ ev.year + 2 := by
  intro e he
  rw [splitInvestment] at he
  split_ifs at he with h8 h4
  · simp only [List.mem_cons, List.not_mem_nil, or_false] at he
    rcases he with rfl | rfl | rfl <;> (dsimp only; omega)
  · simp only [List.mem_cons, List.not_mem_nil, or_false] at he
    rcases he with rfl | rfl <;> (dsimp only; omega)
  · simp only [List.mem_cons, List.not_mem_nil, or_false] at he
    subst he
    dsimp only
    omega

/-- Every scheduled investment's year is among the covered summary years. -/
lemma scheduleOf_year_mem (p : PlanParameters) (bs : List Building) :
    ∀ e ∈ scheduleOf p bs, e.year ∈ summaryYears p := by
  intro e he
  rw [scheduleOf] at he
  obtain ⟨b, -, hbe⟩ := List.mem_flatMap.mp he
  rw [buildingInvestments] at hbe
  rcases hsb : scheduleBuilding b p.trigger_threshold p.target_percentage
      p.start_year p.planning_horizon_years with - | ev
  · rw [hsb] at hbe
    exact absurd hbe (by simp)
  · rw [hsb] at hbe
    obtain ⟨h1, h2⟩ := scheduleBuilding_some_year _ _ _ _ _ _ hsb
    obtain ⟨h3, h4⟩ := splitInvestment_year_range b ev e hbe
    rw [mem_summaryYears]
    omega

/-- Summing an indicator over distinct years picks out the one matching year. -/
lemma sum_single_year (ys : List Int) (x : Int) (a : ℚ) (hnd : ys.Nodup) (hx : x ∈ ys) :
    (ys.map (fun y => if x = y then a else 0)).sum = a := by
  induction ys with
  | nil => simp at hx
  | cons z ys ih =>
    rw [List.map_cons, List.sum_cons]
    rcases List.mem_cons.mp hx with rfl | hx'
    · rw [if_pos rfl]
      have hz : x ∉ ys := (List.nodup_cons.mp hnd).1
      have hrest : (ys.map (fun y => if x = y then a else 0)).sum = 0 := by
        apply List.sum_eq_zero
        intro v hv
        obtain ⟨y, hy, rfl⟩ := List.mem_map.mp hv
        rw [if_neg]
        intro hxy
        exact hz (hxy ▸ hy)
      rw [hrest, add_zero]
    · have hzx : x ≠ z := by
        rintro rfl
        exact (List.nodup_cons.mp hnd).1 hx'
      rw [if_neg hzx, zero_add]
      exact ih (List.nodup_cons.mp hnd).2 hx'

/-- A year's total over a one-longer schedule adds the head's contribution. -/
lemma yearTotal_cons (e : Investment) (inv : List Investment) :
    yearTotal (e :: inv) = fun y =>
      (if e.year = y then e.investment_amount else 0) + yearTotal inv y := by
  funext y
  rw [yearTotal, yearTotal, List.filter_cons]
  by_cases h : e.year = y
  · simp [h]
  · simp [h]

/-- Partition identity: when every entry's year occurs once among the listed
years, the per-year totals sum to the flat total. -/
lemma sum_yearTotals (inv : List Investment) (ys : List Int) (hnd : ys.Nodup)
    (hmem : ∀ e ∈ inv, e.year ∈ ys) :
    (ys.map (yearTotal inv)).sum = (inv.map Investment.investment_amount).sum := by
  induction inv with
  | nil =>
    rw [List.map_nil, List.sum_nil]
    apply List.sum_eq_zero
    intro v hv
    obtain ⟨y, hy, rfl⟩ := List.mem_map.mp hv
    rfl
  | cons e inv ih =>
    rw [yearTotal_cons]
    rw [List.sum_map_add, List.map_cons, List.sum_cons]
    rw [sum_single_year ys e.year e.investment_amount hnd (hmem e (List.mem_cons_self e inv))]
    rw [ih (fun x hx => hmem x (List.mem_cons_of_mem e hx))]

/-- C5: in every generated plan, each year's summarized total equals the sum
of that year's schedule entries, the cumulative figure is the sum of the
summarized totals up to and including that year, the plan total equals the
sum of all summarized annual totals, and the annual average is the plan
total divided by the horizon. -/
theorem plan_aggregation (bs : List Building) (p : PlanParameters) (plan : PTSPlan)
    (h : generate_plan bs p = some plan) :
    (∀ s ∈ plan.annual_summary, s.total_investment =
      ((plan.schedule.filter (fun e => decide (e.year = s.year))).map
        Investment.investment_amount).sum) ∧
    (∀ s ∈ plan.annual_summary, s.cumulative_investment =
      ((plan.annual_summary.filter (fun t => decide (t.year ≤ s.year))).map
        AnnualSummary.total_investment).sum) ∧
    plan.total_investment = (plan.annual_summary.map AnnualSummary.total_investment).sum ∧
    plan.average_annual_investment =
      plan.total_investment / (p.planning_horizon_years : ℚ) := by
  obtain ⟨hv, rfl⟩ := generate_plan_eq_some.mp h
  refine ⟨?_, ?_, ?_, rfl⟩
  · intro s hs
    obtain ⟨y, hy, rfl⟩ := List.mem_map.mp hs
    rfl
  · intro s hs
    obtain ⟨y, hy, rfl⟩ := List.mem_map.mp hs
    show cumulativeThrough p (scheduleOf p bs) y = _
    rw [cumulativeThrough]
    rw [show (makePlan bs p).annual_summary = annualSummaryOf p (scheduleOf p bs) from rfl,
      annualSummaryOf, List.filter_map, List.map_map]
    rfl
  · show ((scheduleOf p bs).map Investment.investment_amount).sum = _
    rw [show (makePlan bs p).annual_summary = annualSummaryOf p (scheduleOf p bs) from rfl,
      annualSummaryOf, List.map_map]
    exact (sum_yearTotals (scheduleOf p bs) (summaryYears p) (summaryYears_nodup p)
      (scheduleOf_year_mem p bs)).symm

/-- Witness for C5: an empty portfolio with valid parameters yields a plan
whose total equals the sum of its summarized annual totals. -/
theorem plan_aggregation_witness :
    (makePlan [] ⟨1 / 2, 1, 10, 2025⟩).total_investment =
      ((makePlan [] ⟨1 / 2, 1, 10, 2025⟩).annual_summary.map
        AnnualSummary.total_investment).sum :=
  (plan_aggregation [] ⟨1 / 2, 1, 10, 2025⟩ (makePlan [] ⟨1 / 2, 1, 10, 2025⟩)
    (by rw [generate_plan, if_pos (show validParams ⟨1 / 2, 1, 10, 2025⟩ from
      ⟨by norm_num, by norm_num, by norm_num⟩)])).2.2.1

/-- C9: `generate_plan` distinguishes the two failure kinds: out-of-range
parameters (threshold outside (0,1) or horizon < 1) are rejected outright
and no plan is produced, while a building with non-positive cost or area
only lands in the warnings list — the remaining buildings still produce a
plan with an unchanged schedule, totals and annual summary. -/
theorem plan_failure_semantics (bs : List Building) (p : PlanParameters) (b : Building) :
    (¬ validParams p → generate_plan bs p = none) ∧
    (validParams p → generate_plan bs p = some (makePlan bs p)) ∧
    (validParams p → ¬ validBuilding b →
      ∃ plan plan', generate_plan (b :: bs) p = some plan ∧
        generate_plan bs p = some plan' ∧
        plan.schedule = plan'.schedule ∧
        b ∈ plan.warnings ∧
        plan.total_investment = plan'.total_investment ∧
        plan.annual_summary = plan'.annual_summary) := by
  refine ⟨?_, ?_, ?_⟩
  · intro h
    rw [generate_plan, if_neg h]
  · intro h
    rw [generate_plan, if_pos h]
  · intro hv hb
    have hdec : (decide (validBuilding b)) = false := decide_eq_false hb
    have hsched : scheduleOf p (b :: bs) = scheduleOf p bs := by
      rw [scheduleOf, scheduleOf, List.filter_cons, hdec]
      rw [if_neg (by simp)]
    refine ⟨makePlan (b :: bs) p, makePlan bs p,
      by rw [generate_plan, if_pos hv], by rw [generate_plan, if_pos hv],
      hsched, ?_, ?_, ?_⟩
    · show b ∈ (b :: bs).filter (fun x => !(decide (validBuilding x)))
      rw [List.mem_filter]
      exact ⟨List.mem_cons_self b bs, by rw [hdec]; rfl⟩
    · show ((scheduleOf p (b :: bs)).map Investment.investment_amount).sum = _
      rw [hsched]
      rfl
    · show annualSummaryOf p (scheduleOf p (b :: bs)) = _
      rw [hsched]
      rfl

/-- Witness for C9: a zero threshold blocks plan generation entirely, while a
zero-area building is only excluded with a warning and the rest of the
portfolio still gets a plan. -/
theorem plan_failure_semantics_witness :
    generate_plan [] ⟨0, 1, 10, 2025⟩ = none ∧
    (∃ plan plan',
      generate_plan [⟨7, 0, 2000, 2500⟩] ⟨1 / 2, 1, 10, 2025⟩ = some plan ∧
      generate_plan [] ⟨1 / 2, 1, 10, 2025⟩ = some plan' ∧
      plan.schedule = plan'.schedule ∧
      (⟨7, 0, 2000, 2500⟩ : Building) ∈ plan.warnings ∧
      plan.total_investment = plan'.total_investment ∧
      plan.annual_summary = plan'.annual_summary) :=
  ⟨(plan_failure_semantics [] ⟨0, 1, 10, 2025⟩ ⟨7, 0, 2000, 2500⟩).1
      (by rw [validParams]; norm_num),
    (plan_failure_semantics [] ⟨1 / 2, 1, 10, 2025⟩ ⟨7, 0, 2000, 2500⟩).2.2
      ⟨by norm_num, by norm_num, by norm_num⟩
      (by rw [validBuilding]; norm_num)⟩

/-- C10 counterexample: a building scored 80 matches both the "good" filter
and the "no-assessment" filter (the predicate's fall-through `return true`
passes every scored building for the "no-assessment" value), so the five
filter classes are not mutually exclusive: the score 80 matches two of
them. -/
theorem condition_classes_counterexample :
    conditionFilterMatches "good" (some 80) = true ∧
    conditionFilterMatches "no-assessment" (some 80) = true ∧
    conditionFilterValues.countP (fun f => conditionFilterMatches f (some 80)) = 2 := by
  refine ⟨?_, ?_, ?_⟩ <;>
    norm_num [conditionFilterValues, conditionFilterMatches, scoreFalsy,
      List.countP_cons, List.countP_nil] <;>
    decide

/-- C10 (amended): a falsy score (missing or exactly 0) matches exactly one of
the five filter values (namely "no-assessment"); a nonzero score matches
exactly one of the four scored classes critical (< 50), poor ([50, 60)),
fair ([60, 75)) and good (≥ 75) — but additionally always passes the
"no-assessment" filter through the predicate's fall-through default.
`getConditionBadge` assigns its labels with the same 50/60/75 cut-points
and the same falsiness rule. -/
theorem condition_classes (score : Option ℚ) :
    (scoreFalsy score = true →
      conditionFilterValues.countP (fun f => conditionFilterMatches f score) = 1) ∧
    (scoreFalsy score = false →
      (["critical", "poor", "fair", "good"] : List String).countP
        (fun f => conditionFilterMatches f score) = 1 ∧
      conditionFilterMatches "no-assessment" score = true) ∧
    (conditionFilterMatches "critical" score = true ↔
      getConditionBadgeLabel score = "Kriittinen") ∧
    (conditionFilterMatches "poor" score = true ↔
      getConditionBadgeLabel score = "Välttävä") ∧
    (conditionFilterMatches "fair" score = true ↔
      getConditionBadgeLabel score = "Tyydyttävä") ∧
    (conditionFilterMatches "good" score = true ↔
      getConditionBadgeLabel score = "Hyvä") ∧
    (scoreFalsy score = true ↔ getConditionBadgeLabel score = "Ei arvioitu") := by
  rcases score with - | s
  · refine ⟨?_, ?_, ?_, ?_, ?_, ?_, ?_⟩ <;>
      simp [conditionFilterValues, conditionFilterMatches, getConditionBadgeLabel, scoreFalsy,
        List.countP_cons, List.countP_nil]
  · by_cases h0 : s = 0
    · subst h0
      have hf : scoreFalsy (some (0 : ℚ)) = true := by
        simp [scoreFalsy]
      refine ⟨?_, ?_, ?_, ?_, ?_, ?_, ?_⟩ <;>
        simp [conditionFilterValues, conditionFilterMatches, getConditionBadgeLabel, hf,
          List.countP_cons, List.countP_nil]
    · have hf : scoreFalsy (some s) = false := by
        simp [scoreFalsy, h0]
      rcases lt_or_le s 50 with h50 | h50
      · have h60 : s < 60 := by linarith
        have h75 : s < 75 := by linarith
        have hn50 : ¬ (50 : ℚ) ≤ s := not_le.mpr h50
        have hn60 : ¬ (60 : ℚ) ≤ s := not_le.mpr h60
        have hn75 : ¬ (75 : ℚ) ≤ s := not_le.mpr h75
        refine ⟨?_, ?_, ?_, ?_, ?_, ?_, ?_⟩ <;>
          simp [conditionFilterValues, conditionFilterMatches, getConditionBadgeLabel, hf,
            List.countP_cons, List.countP_nil, h50, h60, h75, hn50, hn60, hn75]
      · rcases lt_or_le s 60 with h60 | h60
        · have h75 : s < 75 := by linarith
          have hn50 : ¬ s < 50 := not_lt.mpr h50
          have hn60 : ¬ (60 : ℚ) ≤ s := not_le.mpr h60
          have hn75 : ¬ (75 : ℚ) ≤ s := not_le.mpr h75
          refine ⟨?_, ?_, ?_, ?_, ?_, ?_, ?_⟩ <;>
            simp [conditionFilterValues, conditionFilterMatches, getConditionBadgeLabel, hf,
              List.countP_cons, List.countP_nil, h50, h60, h75, hn50, hn60, hn75]
        · rcases lt_or_le s 75 with h75 | h75
          · have hn50 : ¬ s < 50 := not_lt.mpr (by linarith)
            have hn60 : ¬ s < 60 := not_lt.mpr h60
            have hn75 : ¬ (75 : ℚ) ≤ s := not_le.mpr h75
            refine ⟨?_, ?_, ?_, ?_, ?_, ?_, ?_⟩ <;>
              simp [conditionFilterValues, conditionFilterMatches, getConditionBadgeLabel, hf,
                List.countP_cons, List.countP_nil, h50, h60, h75, hn50, hn60, hn75]
          · have hn50 : ¬ s < 50 := not_lt.mpr (by linarith)
            have hn60 : ¬ s < 60 := not_lt.mpr (by linarith)
            have hn75 : ¬ s < 75 := not_lt.mpr h75
            refine ⟨?_, ?_, ?_, ?_, ?_, ?_, ?_⟩ <;>
              simp [conditionFilterValues, conditionFilterMatches, getConditionBadgeLabel, hf,
                List.countP_cons, List.countP_nil, h50, h60, h75, hn50, hn60, hn75]

/-- Witness for C10 (amended claim): the nonzero score 80 matches exactly one
of the four scored classes and also passes the "no-assessment" filter. -/
theorem condition_classes_witness :
    (["critical", "poor", "fair", "good"] : List String).countP
      (fun f => conditionFilterMatches f (some 80)) = 1 ∧
    conditionFilterMatches "no-assessment" (some 80) = true :=
  (condition_classes (some 80)).2.1 (by norm_num [scoreFalsy])

/-- Witness for C6: a single component scored 4 with weight ½ aggregates to
exactly 4. -/
theorem aggregate_assessment_spec_witness :
    aggregate_assessment [⟨some 4, 1 / 2⟩] = some (4 : ℚ) :=
  (aggregate_assessment_spec [⟨some 4, 1 / 2⟩]).2.1 4 (1 / 2)
    (by simp [includedComponents]) (by norm_num)

end FinnVesta
